import Mathlib

/-!
Verification of the air-hockey RL environment (`src/part3/air_hockey_env.py`).

The environment logic (`AirHockeyEnv.step`, `reset`, `_move_bot`,
`_apply_action`, `_constrain_paddle_movement`, `_get_obs`) is embedded
shallowly over exact rationals.  The external physics engine
(`pymunk.Space.step`) is a black box: it is modelled as an arbitrary
function on the rigid-body part of the state, taking the force computed by
`_apply_action` and the kinematic mouse-body position as inputs (the engine
moves only the dynamic bodies; the kinematic mouse body has zero velocity,
so `space.step` leaves it in place; the env-level step counter lives
outside the physics space).
-/

namespace AirHockey

/-- Scalar `np.clip(x, lo, hi)`: equivalent to `min(hi, max(lo, x))`. -/
def npClip (x lo hi : ℚ) : ℚ := min (max x lo) hi

/-- Scalar `np.sign`. -/
def npSign (x : ℚ) : ℚ := if 0 < x then 1 else if x < 0 then -1 else 0

/-- `self.width = 500` (constructor, line 13). -/
def width : ℚ := 500

/-- `self.height = 700` (constructor, line 14). -/
def height : ℚ := 700

/-- `self.paddle_radius = 25` (constructor, line 28). -/
def paddleRadius : ℚ := 25

/-- `self.ball_radius = 15` (constructor, line 29). -/
def ballRadius : ℚ := 15

/-- `force_mult = 50000` (`_apply_action`, line 171). -/
def forceMult : ℚ := 50000

/-- A circular rigid body of the pymunk space: position and velocity. -/
structure Body where
  px : ℚ
  py : ℚ
  vx : ℚ
  vy : ℚ
deriving DecidableEq

/-- The dynamic bodies the physics engine integrates. -/
structure PhysState where
  ball : Body
  aiPaddle : Body
  agentPaddle : Body
deriving DecidableEq

/-- Full environment state: the physics bodies, the kinematic mouse body
controlling the agent paddle through the pivot joint, and the step
counter. -/
structure EnvState where
  ball : Body
  aiPaddle : Body
  agentPaddle : Body
  mouseX : ℚ
  mouseY : ℚ
  steps : ℕ
deriving DecidableEq

/-- One `space.step(dt/10)` call of the external engine, as a black box:
it may update the dynamic bodies in any way, reading the force applied to
the AI paddle and the mouse-body position (which drags the agent paddle
through the pivot joint). -/
def Physics : Type := ℚ × ℚ → ℚ × ℚ → PhysState → PhysState

/-- `AirHockeyEnv.reset` (lines 32-61): ball at centre with the random
launch velocity `(ballVx, ballVy)`, AI paddle at `(width/2, 100)`, agent
paddle at `(width/2, height-100)`, mouse body on the agent paddle, step
counter zero. -/
def reset (ballVx ballVy : ℚ) : EnvState :=
  { ball := { px := width / 2, py := height / 2, vx := ballVx, vy := ballVy }
    aiPaddle := { px := width / 2, py := 100, vx := 0, vy := 0 }
    agentPaddle := { px := width / 2, py := height - 100, vx := 0, vy := 0 }
    mouseX := width / 2
    mouseY := height - 100
    steps := 0 }

/-- `AirHockeyEnv._apply_action` (lines 169-174): the force the clipped
action puts on the paddle, `(clip(a0,-1,1)*50000, clip(a1,-1,1)*50000)`. -/
def applyActionForce (action : ℚ × ℚ) : ℚ × ℚ :=
  (npClip action.1 (-1) 1 * forceMult, npClip action.2 (-1) 1 * forceMult)

/-- `AirHockeyEnv._move_bot` (lines 103-118): move the mouse body's x
toward the ball's x at speed at most 8, snapping when closer than 8, clip
to `[paddle_radius, width - paddle_radius]`, and pin y to `height-100`. -/
def moveBot (s : EnvState) : EnvState :=
  let ballX := s.ball.px
  let currentX := s.mouseX
  let speedLimit : ℚ := 8
  let diff := ballX - currentX
  let newX := if |diff| < speedLimit then ballX else currentX + speedLimit * npSign diff
  let newXc := npClip newX paddleRadius (width - paddleRadius)
  { s with mouseX := newXc, mouseY := height - 100 }

/-- `AirHockeyEnv._constrain_paddle_movement` (lines 176-188): clip the
agent paddle into the lower half and the AI paddle into the upper half. -/
def constrainPaddleMovement (s : EnvState) : EnvState :=
  let p := s.agentPaddle
  let newX := npClip p.px paddleRadius (width - paddleRadius)
  let newY := npClip p.py (height / 2 + paddleRadius) (height - paddleRadius)
  let pAi := s.aiPaddle
  let newAiX := npClip pAi.px paddleRadius (width - paddleRadius)
  let newAiY := npClip pAi.py paddleRadius (height / 2 - paddleRadius)
  { s with agentPaddle := { p with px := newX, py := newY }
           aiPaddle := { pAi with px := newAiX, py := newAiY } }

/-- One physics substep of `step`'s loop (lines 72-74): one engine call
followed by `_constrain_paddle_movement`. -/
def substep (physics : Physics) (force : ℚ × ℚ) (s : EnvState) : EnvState :=
  let p := physics force (s.mouseX, s.mouseY) ⟨s.ball, s.aiPaddle, s.agentPaddle⟩
  constrainPaddleMovement
    { s with ball := p.ball, aiPaddle := p.aiPaddle, agentPaddle := p.agentPaddle }

/-- The state after `step`'s action application, bot move and the ten
physics substeps (lines 66-74), before the counter/reward block. -/
def postPhysics (physics : Physics) (withBot : Bool) (action : ℚ × ℚ)
    (s : EnvState) : EnvState :=
  let s1 := if withBot then moveBot s else s
  (substep physics (applyActionForce action))^[10] s1

/-- The reward/terminated block of `step` (lines 78-92): `(reward,
terminated)` as a function of the post-physics ball y. -/
def stepRewardTerminated (ballY : ℚ) : ℚ × Bool :=
  let rt : ℚ × Bool :=
    if ballY < 0 then (10, true)
    else if ballY > height then (-10, true)
    else (0, false)
  (if ballY < height / 2 then rt.1 + 1 / 1000 else rt.1, rt.2)

/-- `AirHockeyEnv.step` (lines 63-101): returns the next state and the
`(reward, terminated, truncated)` triple. -/
def step (physics : Physics) (withBot : Bool) (action : ℚ × ℚ)
    (s : EnvState) : EnvState × ℚ × Bool × Bool :=
  let s2 := postPhysics physics withBot action s
  let s3 := { s2 with steps := s2.steps + 1 }
  let rt := stepRewardTerminated s3.ball.py
  (s3, rt.1, rt.2, decide (s3.steps > 2000))

/-- `AirHockeyEnv._get_obs` (lines 190-198): the 8-element normalised
observation vector. -/
def getObs (s : EnvState) : List ℚ :=
  [s.ball.px / width, s.ball.py / height, s.ball.vx / 1000, s.ball.vy / 1000,
   s.aiPaddle.px / width, s.aiPaddle.py / height,
   s.agentPaddle.px / width, s.agentPaddle.py / height]

/-- The state after `n` calls to `step` (with the bot enabled, as in
training) starting from `s0`, with per-call physics and actions. -/
def runSteps (physics : ℕ → Physics) (actions : ℕ → ℚ × ℚ) (s0 : EnvState) :
    ℕ → EnvState
  | 0 => s0
  | n + 1 => (step (physics n) true (actions n) (runSteps physics actions s0 n)).1

/-- A physics oracle that leaves every body where it is (a still ball and
paddles heavy enough not to move in one substep). -/
def idPhysics : Physics := fun _ _ p => p

/-- A physics oracle under which the ball ends up past the top goal line
(`y = -5`). -/
def sinkPhysics : Physics := fun _ _ p => { p with ball := { p.ball with py := -5 } }

/-- A physics oracle under which the ball ends up past the bottom goal
line (`y = 705`). -/
def liftPhysics : Physics := fun _ _ p => { p with ball := { p.ball with py := 705 } }

/-- The run that calls `step` repeatedly with the motionless physics
oracle and zero actions from `reset 0 0`. -/
def idRun (n : ℕ) : EnvState :=
  runSteps (fun _ => idPhysics) (fun _ => (0, 0)) (reset 0 0) n

/-- `true` iff none of the first `n` calls of the motionless run returns
`terminated = true`. -/
def noTerminationUpTo (n : ℕ) : Bool :=
  (List.range n).all fun k => !(step idPhysics true (0, 0) (idRun k)).2.2.1

/-- `npClip` lands in the interval whenever the interval is non-empty. -/
theorem npClip_mem (x lo hi : ℚ) (h : lo ≤ hi) :
    lo ≤ npClip x lo hi ∧ npClip x lo hi ≤ hi := by
  unfold npClip
  exact ⟨le_min (le_max_right x lo) h, min_le_right _ _⟩

/-- Clipping to an interval containing `c` does not increase the distance
to `c`. -/
theorem abs_npClip_sub_le (x lo hi c : ℚ) (hc1 : lo ≤ c) (hc2 : c ≤ hi) :
    |npClip x lo hi - c| ≤ |x - c| := by
  have h1 := le_abs_self (x - c)
  have h2 := neg_abs_le (x - c)
  unfold npClip
  rw [abs_le]
  rcases le_total x lo with hxlo | hxlo
  · rw [max_eq_right hxlo, min_eq_left (hc1.trans hc2)]
    constructor <;> linarith
  · rw [max_eq_left hxlo]
    rcases le_total x hi with hxhi | hxhi
    · rw [min_eq_left hxhi]
      constructor <;> linarith
    · rw [min_eq_right hxhi]
      constructor <;> linarith

/-- Shared bound facts for `_constrain_paddle_movement`: both paddles are
clipped into their own half of the table. -/
theorem constrain_bounds_aux (s : EnvState) :
    (paddleRadius ≤ (constrainPaddleMovement s).agentPaddle.px ∧
      (constrainPaddleMovement s).agentPaddle.px ≤ width - paddleRadius ∧
      height / 2 + paddleRadius ≤ (constrainPaddleMovement s).agentPaddle.py ∧
      (constrainPaddleMovement s).agentPaddle.py ≤ height - paddleRadius) ∧
    (paddleRadius ≤ (constrainPaddleMovement s).aiPaddle.px ∧
      (constrainPaddleMovement s).aiPaddle.px ≤ width - paddleRadius ∧
      paddleRadius ≤ (constrainPaddleMovement s).aiPaddle.py ∧
      (constrainPaddleMovement s).aiPaddle.py ≤ height / 2 - paddleRadius) := by
  have h1 := npClip_mem s.agentPaddle.px paddleRadius (width - paddleRadius)
    (by norm_num [paddleRadius, width])
  have h2 := npClip_mem s.agentPaddle.py (height / 2 + paddleRadius)
    (height - paddleRadius) (by norm_num [paddleRadius, height])
  have h3 := npClip_mem s.aiPaddle.px paddleRadius (width - paddleRadius)
    (by norm_num [paddleRadius, width])
  have h4 := npClip_mem s.aiPaddle.py paddleRadius (height / 2 - paddleRadius)
    (by norm_num [paddleRadius, height])
  exact ⟨⟨h1.1, h1.2, h2.1, h2.2⟩, ⟨h3.1, h3.2, h4.1, h4.2⟩⟩

/-- C3: after every invocation of `_constrain_paddle_movement`, the agent
(lower) paddle's centre lies in
`[paddle_radius, width - paddle_radius] × [height/2 + paddle_radius, height - paddle_radius]`
and the AI (upper) paddle's centre lies in
`[paddle_radius, width - paddle_radius] × [paddle_radius, height/2 - paddle_radius]`,
with `width = 500`, `height = 700`, `paddle_radius = 25`. -/
theorem constrainPaddleMovement_bounds (s : EnvState) :
    (paddleRadius ≤ (constrainPaddleMovement s).agentPaddle.px ∧
      (constrainPaddleMovement s).agentPaddle.px ≤ width - paddleRadius ∧
      height / 2 + paddleRadius ≤ (constrainPaddleMovement s).agentPaddle.py ∧
      (constrainPaddleMovement s).agentPaddle.py ≤ height - paddleRadius) ∧
    (paddleRadius ≤ (constrainPaddleMovement s).aiPaddle.px ∧
      (constrainPaddleMovement s).aiPaddle.px ≤ width - paddleRadius ∧
      paddleRadius ≤ (constrainPaddleMovement s).aiPaddle.py ∧
      (constrainPaddleMovement s).aiPaddle.py ≤ height / 2 - paddleRadius) ∧
    width = 500 ∧ height = 700 ∧ paddleRadius = 25 := by
  obtain ⟨ha, hb⟩ := constrain_bounds_aux s
  exact ⟨ha, hb, rfl, rfl, rfl⟩

/-- C9: after every paddle constraint enforcement the paddles cannot
overlap: the agent paddle's centre y is at least `height/2 + 25`, the AI
paddle's centre y is at most `height/2 - 25`, so the squared distance
between the centres is at least `50² = (25 + 25)²`, the square of the sum
of the two paddle radii. -/
theorem constrainPaddleMovement_no_overlap (s : EnvState) :
    height / 2 + 25 ≤ (constrainPaddleMovement s).agentPaddle.py ∧
    (constrainPaddleMovement s).aiPaddle.py ≤ height / 2 - 25 ∧
    ((constrainPaddleMovement s).agentPaddle.px -
        (constrainPaddleMovement s).aiPaddle.px) ^ 2 +
      ((constrainPaddleMovement s).agentPaddle.py -
        (constrainPaddleMovement s).aiPaddle.py) ^ 2 ≥ (25 + 25) ^ 2 := by
  obtain ⟨⟨-, -, ha, -⟩, -, -, -, hb⟩ := constrain_bounds_aux s
  rw [show paddleRadius = 25 from rfl] at ha hb
  refine ⟨ha, hb, ?_⟩
  have hy : (constrainPaddleMovement s).agentPaddle.py -
      (constrainPaddleMovement s).aiPaddle.py ≥ 50 := by linarith
  nlinarith [sq_nonneg ((constrainPaddleMovement s).agentPaddle.px -
    (constrainPaddleMovement s).aiPaddle.px)]

/-- C10: `_constrain_paddle_movement` modifies only the two paddles'
positions: the ball's position and velocity, both paddles' velocities, the
mouse body and the step counter are unchanged. -/
theorem constrainPaddleMovement_frame (s : EnvState) :
    (constrainPaddleMovement s).ball = s.ball ∧
    (constrainPaddleMovement s).agentPaddle.vx = s.agentPaddle.vx ∧
    (constrainPaddleMovement s).agentPaddle.vy = s.agentPaddle.vy ∧
    (constrainPaddleMovement s).aiPaddle.vx = s.aiPaddle.vx ∧
    (constrainPaddleMovement s).aiPaddle.vy = s.aiPaddle.vy ∧
    (constrainPaddleMovement s).mouseX = s.mouseX ∧
    (constrainPaddleMovement s).mouseY = s.mouseY ∧
    (constrainPaddleMovement s).steps = s.steps :=
  ⟨rfl, rfl, rfl, rfl, rfl, rfl, rfl, rfl⟩

/-- C4: `_apply_action` is total (no error on any input) and, because the
action is first clipped componentwise to `[-1, 1]`, each component of the
applied force has magnitude at most `force_mult = 50000`. -/
theorem applyActionForce_bounded (action : ℚ × ℚ) :
    |(applyActionForce action).1| ≤ forceMult ∧
    |(applyActionForce action).2| ≤ forceMult ∧ forceMult = 50000 := by
  have h1 := npClip_mem action.1 (-1) 1 (by norm_num)
  have h2 := npClip_mem action.2 (-1) 1 (by norm_num)
  have ha1 : |npClip action.1 (-1) 1| ≤ 1 := abs_le.mpr ⟨h1.1, h1.2⟩
  have ha2 : |npClip action.2 (-1) 1| ≤ 1 := abs_le.mpr ⟨h2.1, h2.2⟩
  refine ⟨?_, ?_, rfl⟩
  · show |npClip action.1 (-1) 1 * forceMult| ≤ forceMult
    rw [abs_mul, show forceMult = 50000 from rfl]
    rw [abs_of_nonneg (by norm_num : (0 : ℚ) ≤ 50000)]
    nlinarith [abs_nonneg (npClip action.1 (-1) 1)]
  · show |npClip action.2 (-1) 1 * forceMult| ≤ forceMult
    rw [abs_mul, show forceMult = 50000 from rfl]
    rw [abs_of_nonneg (by norm_num : (0 : ℚ) ≤ 50000)]
    nlinarith [abs_nonneg (npClip action.2 (-1) 1)]

/-- The reward returned by `step` is the reward block evaluated at the
post-physics ball y. -/
theorem step_reward_eq (p : Physics) (wb : Bool) (a : ℚ × ℚ) (s : EnvState) :
    (step p wb a s).2.1 = (stepRewardTerminated (postPhysics p wb a s).ball.py).1 := rfl

/-- The terminated flag returned by `step` is the reward block evaluated
at the post-physics ball y. -/
theorem step_terminated_eq (p : Physics) (wb : Bool) (a : ℚ × ℚ) (s : EnvState) :
    (step p wb a s).2.2.1 = (stepRewardTerminated (postPhysics p wb a s).ball.py).2 := rfl

/-- Neither the bot move nor the physics substeps touch the step
counter. -/
theorem steps_postPhysics (p : Physics) (wb : Bool) (a : ℚ × ℚ) (s : EnvState) :
    (postPhysics p wb a s).steps = s.steps := by
  cases wb <;> rfl

/-- The truncated flag returned by `step` only depends on the incremented
step counter. -/
theorem truncated_step (p : Physics) (wb : Bool) (a : ℚ × ℚ) (s : EnvState) :
    (step p wb a s).2.2.2 = decide (s.steps + 1 > 2000) := by
  show decide ((postPhysics p wb a s).steps + 1 > 2000) = decide (s.steps + 1 > 2000)
  rw [steps_postPhysics]

/-- After `n` calls to `step` the counter has grown by `n`. -/
theorem steps_runSteps (p : ℕ → Physics) (a : ℕ → ℚ × ℚ) (s0 : EnvState) (n : ℕ) :
    (runSteps p a s0 n).steps = s0.steps + n := by
  induction n with
  | zero => rfl
  | succ k ih =>
    show (postPhysics (p k) true (a k) (runSteps p a s0 k)).steps + 1 = s0.steps + (k + 1)
    rw [steps_postPhysics, ih]
    omega

/-- Reward block on a ball past the top goal line: `(10 + 0.001, true)`,
because `y < 0` also satisfies the shaping test `y < height/2`. -/
theorem stepRewardTerminated_top (y : ℚ) (h : y < 0) :
    stepRewardTerminated y = (10 + 1 / 1000, true) := by
  have h2 : y < height / 2 := h.trans (by norm_num [height])
  simp only [stepRewardTerminated]
  rw [if_pos h, if_pos h2]

/-- Reward block on a ball past the bottom goal line: `(-10, true)`; the
shaping test `y < height/2` fails there. -/
theorem stepRewardTerminated_bottom (y : ℚ) (h : y > height) :
    stepRewardTerminated y = (-10, true) := by
  have h0 : ¬ y < 0 := not_lt.mpr ((by norm_num [height] : (0 : ℚ) ≤ height).trans h.le)
  have h2 : ¬ y < height / 2 := not_lt.mpr ((by norm_num [height] : height / 2 ≤ height).trans h.le)
  simp only [stepRewardTerminated]
  rw [if_neg h0, if_pos h, if_neg h2]

/-- Reward block on an in-bounds ball: not terminated, reward is the
shaping term alone. -/
theorem stepRewardTerminated_mid (y : ℚ) (h0 : 0 ≤ y) (h1 : y ≤ height) :
    stepRewardTerminated y = (if y < height / 2 then 1 / 1000 else 0, false) := by
  simp only [stepRewardTerminated]
  rw [if_neg (not_lt.mpr h0), if_neg (not_lt.mpr h1)]
  split_ifs with h <;> norm_num

/-- C1 counterexample: a concrete call (motionless start, a physics
oracle that leaves the ball at `y = -5 < 0`) on which `step` does not
return reward `10`: the shaping term is added on top of the goal reward
(line 91 of `air_hockey_env.py` runs unconditionally). -/
theorem step_topGoal_reward_cex :
    (postPhysics sinkPhysics true (0, 0) (reset 0 0)).ball.py < 0 ∧
    (step sinkPhysics true (0, 0) (reset 0 0)).2.1 ≠ 10 := by
  refine ⟨by decide, ?_⟩
  rw [step_reward_eq, stepRewardTerminated_top _ (by decide)]
  norm_num

/-- C1 (amended): if after the physics update the ball's y position is
less than 0, `step` returns `terminated = true` with reward exactly
`10 + 0.001` — the `+10` goal reward plus the shaping term, which also
fires because `y < 0 < height/2`. -/
theorem step_topGoal (p : Physics) (wb : Bool) (a : ℚ × ℚ) (s : EnvState)
    (h : (postPhysics p wb a s).ball.py < 0) :
    (step p wb a s).2.2.1 = true ∧ (step p wb a s).2.1 = 10 + 1 / 1000 := by
  rw [step_terminated_eq, step_reward_eq, stepRewardTerminated_top _ h]
  exact ⟨rfl, rfl⟩

/-- Witness for C1's amended theorem at a concrete call. -/
theorem step_topGoal_witness :
    (postPhysics sinkPhysics true (0, 0) (reset 0 0)).ball.py < 0 ∧
    ((step sinkPhysics true (0, 0) (reset 0 0)).2.2.1 = true ∧
      (step sinkPhysics true (0, 0) (reset 0 0)).2.1 = 10 + 1 / 1000) :=
  ⟨by decide, step_topGoal sinkPhysics true (0, 0) (reset 0 0) (by decide)⟩

/-- C5: if after the physics update the ball's y position is greater than
the table height (700), `step` returns `terminated = true` with reward
exactly `-10` (the shaping test `y < height/2` cannot fire there). -/
theorem step_bottomGoal (p : Physics) (wb : Bool) (a : ℚ × ℚ) (s : EnvState)
    (h : (postPhysics p wb a s).ball.py > height) :
    (step p wb a s).2.2.1 = true ∧ (step p wb a s).2.1 = -10 := by
  rw [step_terminated_eq, step_reward_eq, stepRewardTerminated_bottom _ h]
  exact ⟨rfl, rfl⟩

/-- Witness for C5 at a concrete call. -/
theorem step_bottomGoal_witness :
    (postPhysics liftPhysics true (0, 0) (reset 0 0)).ball.py > height ∧
    ((step liftPhysics true (0, 0) (reset 0 0)).2.2.1 = true ∧
      (step liftPhysics true (0, 0) (reset 0 0)).2.1 = -10) :=
  ⟨by decide, step_bottomGoal liftPhysics true (0, 0) (reset 0 0) (by decide)⟩

/-- C6: on a call where no goal is scored (post-physics ball y within
`[0, height]`), `step` returns `terminated = false` and the reward is the
shaping term alone: `0.001` when the ball is in the opponent's half
(`y < height/2`), `0` otherwise. -/
theorem step_noGoal (p : Physics) (wb : Bool) (a : ℚ × ℚ) (s : EnvState)
    (h0 : 0 ≤ (postPhysics p wb a s).ball.py)
    (h1 : (postPhysics p wb a s).ball.py ≤ height) :
    (step p wb a s).2.2.1 = false ∧
    (step p wb a s).2.1 =
      (if (postPhysics p wb a s).ball.py < height / 2 then 1 / 1000 else 0) := by
  rw [step_terminated_eq, step_reward_eq, stepRewardTerminated_mid _ h0 h1]
  exact ⟨rfl, rfl⟩

/-- Witness for C6 at a concrete call (motionless physics keeps the ball
at the centre line `y = 350`, so the shaping term is 0). -/
theorem step_noGoal_witness :
    (0 ≤ (postPhysics idPhysics true (0, 0) (reset 0 0)).ball.py ∧
      (postPhysics idPhysics true (0, 0) (reset 0 0)).ball.py ≤ height) ∧
    ((step idPhysics true (0, 0) (reset 0 0)).2.2.1 = false ∧
      (step idPhysics true (0, 0) (reset 0 0)).2.1 =
        (if (postPhysics idPhysics true (0, 0) (reset 0 0)).ball.py < height / 2
          then 1 / 1000 else 0)) := by
  have hb : (postPhysics idPhysics true (0, 0) (reset 0 0)).ball.py = height / 2 := rfl
  have h0 : 0 ≤ (postPhysics idPhysics true (0, 0) (reset 0 0)).ball.py := by
    rw [hb]; norm_num [height]
  have h1 : (postPhysics idPhysics true (0, 0) (reset 0 0)).ball.py ≤ height := by
    rw [hb]; norm_num [height]
  exact ⟨⟨h0, h1⟩, step_noGoal idPhysics true (0, 0) (reset 0 0) h0 h1⟩

/-- Under the motionless physics oracle a `step` call leaves the ball
where it was. -/
theorem ball_step_id (a : ℚ × ℚ) (s : EnvState) :
    (step idPhysics true a s).1.ball = s.ball := rfl

/-- In the motionless run the ball never leaves the centre of the
table. -/
theorem ball_idRun (n : ℕ) : (idRun n).ball = (reset 0 0).ball := by
  induction n with
  | zero => rfl
  | succ k ih =>
    show (step idPhysics true (0, 0) (idRun k)).1.ball = (reset 0 0).ball
    rw [ball_step_id, ih]

/-- Under the motionless physics oracle the terminated flag only depends
on the incoming ball y. -/
theorem terminated_step_id (a : ℚ × ℚ) (s : EnvState) :
    (step idPhysics true a s).2.2.1 = (stepRewardTerminated s.ball.py).2 := rfl

/-- No call of the motionless run terminates the episode (the ball sits
at `y = 350`, inside the table). -/
theorem not_terminated_idRun (k : ℕ) :
    (step idPhysics true (0, 0) (idRun k)).2.2.1 = false := by
  have hb : (idRun k).ball.py = (reset 0 0).ball.py := by rw [ball_idRun]
  rw [terminated_step_id, hb, show (reset 0 0).ball.py = height / 2 from rfl,
    stepRewardTerminated_mid _ (by norm_num [height]) (by norm_num [height])]

/-- C2 counterexample: in the concrete motionless run no call terminates
the episode, yet the 2000th call to `step` since reset returns
`truncated = false` (the code increments `steps` to 2000 and then tests
`steps > 2000`). -/
theorem step_truncation_cex :
    noTerminationUpTo 1999 = true ∧
    (step idPhysics true (0, 0) (idRun 1999)).2.2.2 = false := by
  constructor
  · simp only [noTerminationUpTo, List.all_eq_true, List.mem_range, Bool.not_eq_eq_eq_not,
      Bool.not_true]
    intro k _
    exact not_terminated_idRun k
  · rw [truncated_step]
    have hs : (idRun 1999).steps = 1999 := by
      show (runSteps (fun _ => idPhysics) (fun _ => (0, 0)) (reset 0 0) 1999).steps = 1999
      rw [steps_runSteps, show (reset 0 0).steps = 0 from rfl, Nat.zero_add]
    rw [hs]
    decide

/-- C2 (amended): starting from reset (step counter 0), if no earlier
call has terminated the episode, the call with index `n` (the
`n+1`-st call since reset) returns `truncated = decide (n + 1 > 2000)`:
`false` for the first 2000 calls and `true` from the 2001st call on. -/
theorem step_truncation_amended (p : ℕ → Physics) (a : ℕ → ℚ × ℚ) (vx vy : ℚ) (n : ℕ)
    (hterm : ∀ k, k < n →
      (step (p k) true (a k) (runSteps p a (reset vx vy) k)).2.2.1 = false) :
    (step (p n) true (a n) (runSteps p a (reset vx vy) n)).2.2.2 =
      decide (n + 1 > 2000) := by
  rw [truncated_step, steps_runSteps, show (reset vx vy).steps = 0 from rfl, Nat.zero_add]

/-- Witness for C2's amended theorem: the first call of the motionless
run (no prior call, so the no-termination hypothesis holds vacuously)
returns `truncated = false`. -/
theorem step_truncation_amended_witness :
    (step ((fun _ => idPhysics) 0) true ((fun _ : ℕ => ((0 : ℚ), (0 : ℚ))) 0)
      (runSteps (fun _ => idPhysics) (fun _ => (0, 0)) (reset 0 0) 0)).2.2.2 = false := by
  have h := step_truncation_amended (fun _ => idPhysics) (fun _ => (0, 0)) 0 0 0
    (fun k hk => absurd hk (Nat.not_lt_zero k))
  simpa using h

/-- A coordinate in `[0, d]` divided by `d > 0` lands in `[-1, 1]`. -/
theorem div_mem_of_nonneg (x d : ℚ) (hd : 0 < d) (h0 : 0 ≤ x) (h1 : x ≤ d) :
    -1 ≤ x / d ∧ x / d ≤ 1 := by
  constructor
  · exact le_trans (by norm_num) (div_nonneg h0 hd.le)
  · rw [div_le_one hd]
    exact h1

/-- A value of magnitude at most `d` divided by `d > 0` lands in
`[-1, 1]`. -/
theorem div_mem_of_abs (x d : ℚ) (hd : 0 < d) (h : |x| ≤ d) :
    -1 ≤ x / d ∧ x / d ≤ 1 := by
  rw [abs_le] at h
  constructor
  · rw [le_div_iff hd]
    linarith [h.1]
  · rw [div_le_one hd]
    exact h.2

/-- C7: for every physical state with the ball and both paddle centres
inside the `500 × 700` table and ball velocity components of magnitude at
most 1000, every entry of the 8-element observation vector lies in
`[-1, 1]`. -/
theorem getObs_bounds (s : EnvState)
    (hbx : 0 ≤ s.ball.px ∧ s.ball.px ≤ width)
    (hby : 0 ≤ s.ball.py ∧ s.ball.py ≤ height)
    (hvx : |s.ball.vx| ≤ 1000) (hvy : |s.ball.vy| ≤ 1000)
    (hax : 0 ≤ s.aiPaddle.px ∧ s.aiPaddle.px ≤ width)
    (hay : 0 ≤ s.aiPaddle.py ∧ s.aiPaddle.py ≤ height)
    (hox : 0 ≤ s.agentPaddle.px ∧ s.agentPaddle.px ≤ width)
    (hoy : 0 ≤ s.agentPaddle.py ∧ s.agentPaddle.py ≤ height) :
    ∀ q ∈ getObs s, -1 ≤ q ∧ q ≤ 1 := by
  have hw : (0 : ℚ) < width := by norm_num [width]
  have hh : (0 : ℚ) < height := by norm_num [height]
  intro q hq
  simp only [getObs, List.mem_cons, List.not_mem_nil, or_false] at hq
  rcases hq with h | h | h | h | h | h | h | h <;> subst h
  · exact div_mem_of_nonneg _ _ hw hbx.1 hbx.2
  · exact div_mem_of_nonneg _ _ hh hby.1 hby.2
  · exact div_mem_of_abs _ _ (by norm_num) hvx
  · exact div_mem_of_abs _ _ (by norm_num) hvy
  · exact div_mem_of_nonneg _ _ hw hax.1 hax.2
  · exact div_mem_of_nonneg _ _ hh hay.1 hay.2
  · exact div_mem_of_nonneg _ _ hw hox.1 hox.2
  · exact div_mem_of_nonneg _ _ hh hoy.1 hoy.2

/-- Witness for C7 at the reset state with a still ball. -/
theorem getObs_bounds_witness :
    ((0 ≤ (reset 0 0).ball.px ∧ (reset 0 0).ball.px ≤ width) ∧
      (0 ≤ (reset 0 0).ball.py ∧ (reset 0 0).ball.py ≤ height) ∧
      |(reset 0 0).ball.vx| ≤ 1000 ∧ |(reset 0 0).ball.vy| ≤ 1000 ∧
      (0 ≤ (reset 0 0).aiPaddle.px ∧ (reset 0 0).aiPaddle.px ≤ width) ∧
      (0 ≤ (reset 0 0).aiPaddle.py ∧ (reset 0 0).aiPaddle.py ≤ height) ∧
      (0 ≤ (reset 0 0).agentPaddle.px ∧ (reset 0 0).agentPaddle.px ≤ width) ∧
      (0 ≤ (reset 0 0).agentPaddle.py ∧ (reset 0 0).agentPaddle.py ≤ height)) ∧
    (∀ q ∈ getObs (reset 0 0), -1 ≤ q ∧ q ≤ 1) := by
  have hbx : 0 ≤ (reset 0 0).ball.px ∧ (reset 0 0).ball.px ≤ width := by
    constructor <;> norm_num [reset, width]
  have hby : 0 ≤ (reset 0 0).ball.py ∧ (reset 0 0).ball.py ≤ height := by
    constructor <;> norm_num [reset, width, height]
  have hvx : |(reset 0 0).ball.vx| ≤ 1000 := by norm_num [reset]
  have hvy : |(reset 0 0).ball.vy| ≤ 1000 := by norm_num [reset]
  have hax : 0 ≤ (reset 0 0).aiPaddle.px ∧ (reset 0 0).aiPaddle.px ≤ width := by
    constructor <;> norm_num [reset, width]
  have hay : 0 ≤ (reset 0 0).aiPaddle.py ∧ (reset 0 0).aiPaddle.py ≤ height := by
    constructor <;> norm_num [reset, width, height]
  have hox : 0 ≤ (reset 0 0).agentPaddle.px ∧ (reset 0 0).agentPaddle.px ≤ width := by
    constructor <;> norm_num [reset, width]
  have hoy : 0 ≤ (reset 0 0).agentPaddle.py ∧ (reset 0 0).agentPaddle.py ≤ height := by
    constructor <;> norm_num [reset, width, height]
  exact ⟨⟨hbx, hby, hvx, hvy, hax, hay, hox, hoy⟩,
    getObs_bounds (reset 0 0) hbx hby hvx hvy hax hay hox hoy⟩

/-- The mouse x computed by `_move_bot`, written out. -/
theorem moveBot_mouseX_eq (s : EnvState) :
    (moveBot s).mouseX =
      npClip (if |s.ball.px - s.mouseX| < 8 then s.ball.px
        else s.mouseX + 8 * npSign (s.ball.px - s.mouseX))
        paddleRadius (width - paddleRadius) := rfl

/-- Clipping to an interval containing `c` cannot move past a point `b`
that `x` already approached at least as well as `c` does. -/
theorem abs_npClip_sub_le_of_closer (x lo hi c b : ℚ) (hc1 : lo ≤ c) (hc2 : c ≤ hi)
    (h : |x - b| ≤ |c - b|) : |npClip x lo hi - b| ≤ |c - b| := by
  have hb1 := le_abs_self (c - b)
  have hb2 := neg_abs_le (c - b)
  unfold npClip
  rw [abs_le] at h ⊢
  rcases le_total x lo with h1 | h1
  · rw [max_eq_right h1, min_eq_left (hc1.trans hc2)]
    constructor <;> linarith
  · rw [max_eq_left h1]
    rcases le_total x hi with h2 | h2
    · rw [min_eq_left h2]
      exact h
    · rw [min_eq_right h2]
      constructor <;> linarith

/-- Before clipping, the bot target moves toward the ball x by at most 8,
snapping when the gap is below 8. -/
theorem moveBot_target_aux (b c : ℚ) :
    |(if |b - c| < 8 then b else c + 8 * npSign (b - c)) - c| ≤ 8 ∧
    |(if |b - c| < 8 then b else c + 8 * npSign (b - c)) - b| ≤ |c - b| := by
  rcases lt_or_le (|b - c|) 8 with hs | hs
  · rw [if_pos hs]
    exact ⟨hs.le, by rw [sub_self, abs_zero]; exact abs_nonneg _⟩
  · rw [if_neg (not_lt.mpr hs)]
    rcases le_abs.mp hs with hd | hd
    · have hsg : npSign (b - c) = 1 := by
        unfold npSign
        rw [if_pos (by linarith : (0 : ℚ) < b - c)]
      rw [hsg]
      constructor
      · rw [show c + 8 * 1 - c = (8 : ℚ) from by ring]
        norm_num
      · rw [show c + 8 * 1 - b = -(b - c - 8) from by ring, abs_neg,
          abs_of_nonneg (by linarith : (0 : ℚ) ≤ b - c - 8),
          abs_sub_comm, abs_of_nonneg (by linarith : (0 : ℚ) ≤ b - c)]
        linarith
    · have hsg : npSign (b - c) = -1 := by
        unfold npSign
        rw [if_neg (by linarith : ¬ (0 : ℚ) < b - c),
          if_pos (by linarith : b - c < 0)]
      rw [hsg]
      constructor
      · rw [show c + 8 * -1 - c = (-8 : ℚ) from by ring]
        norm_num
      · rw [show c + 8 * -1 - b = c - b - 8 from by ring,
          abs_of_nonneg (by linarith : (0 : ℚ) ≤ c - b - 8),
          abs_of_nonneg (by linarith : (0 : ℚ) ≤ c - b)]
        linarith

/-- C8: on every bot move from a state whose control point already sits
in the admissible x-range (an invariant of bot-enabled runs), the bot's
control point moves horizontally toward the ball's x by at most the
capped per-step speed 8.0 (snapping to the ball's x, then clamping, when
the gap is below 8.0), its x lands in
`[paddle_radius, width - paddle_radius]`, and its y is pinned to
`height - 100`. -/
theorem moveBot_spec (s : EnvState)
    (h1 : paddleRadius ≤ s.mouseX) (h2 : s.mouseX ≤ width - paddleRadius) :
    (moveBot s).mouseY = height - 100 ∧
    paddleRadius ≤ (moveBot s).mouseX ∧
    (moveBot s).mouseX ≤ width - paddleRadius ∧
    |(moveBot s).mouseX - s.mouseX| ≤ 8 ∧
    (|s.ball.px - s.mouseX| < 8 →
      (moveBot s).mouseX = npClip s.ball.px paddleRadius (width - paddleRadius)) ∧
    |(moveBot s).mouseX - s.ball.px| ≤ |s.mouseX - s.ball.px| := by
  obtain ⟨hcap, htow⟩ := moveBot_target_aux s.ball.px s.mouseX
  refine ⟨rfl, ?_, ?_, ?_, ?_, ?_⟩
  · rw [moveBot_mouseX_eq]
    exact (npClip_mem _ paddleRadius (width - paddleRadius)
      (by norm_num [paddleRadius, width])).1
  · rw [moveBot_mouseX_eq]
    exact (npClip_mem _ paddleRadius (width - paddleRadius)
      (by norm_num [paddleRadius, width])).2
  · rw [moveBot_mouseX_eq]
    exact le_trans
      (abs_npClip_sub_le _ paddleRadius (width - paddleRadius) s.mouseX h1 h2) hcap
  · intro hsnap
    rw [moveBot_mouseX_eq, if_pos hsnap]
  · rw [moveBot_mouseX_eq]
    exact abs_npClip_sub_le_of_closer _ paddleRadius (width - paddleRadius)
      s.mouseX s.ball.px h1 h2 htow

/-- The hypothesis of the bot-move property is an invariant of
bot-enabled runs: every bot-enabled `step` leaves the control point's x
inside `[paddle_radius, width - paddle_radius]` (and `reset` starts it at
`width/2`). -/
theorem mouseX_step_mem (p : Physics) (a : ℚ × ℚ) (s : EnvState) :
    paddleRadius ≤ (step p true a s).1.mouseX ∧
    (step p true a s).1.mouseX ≤ width - paddleRadius := by
  have he : (step p true a s).1.mouseX = (moveBot s).mouseX := rfl
  rw [he, moveBot_mouseX_eq]
  exact npClip_mem _ _ _ (by norm_num [paddleRadius, width])

/-- Witness for C8 at the reset state (control point at the centre, ball
straight ahead: the bot snaps onto the ball's x). -/
theorem moveBot_spec_witness :
    (paddleRadius ≤ (reset 0 0).mouseX ∧ (reset 0 0).mouseX ≤ width - paddleRadius) ∧
    ((moveBot (reset 0 0)).mouseY = height - 100 ∧
      paddleRadius ≤ (moveBot (reset 0 0)).mouseX ∧
      (moveBot (reset 0 0)).mouseX ≤ width - paddleRadius ∧
      |(moveBot (reset 0 0)).mouseX - (reset 0 0).mouseX| ≤ 8 ∧
      (|(reset 0 0).ball.px - (reset 0 0).mouseX| < 8 →
        (moveBot (reset 0 0)).mouseX =
          npClip (reset 0 0).ball.px paddleRadius (width - paddleRadius)) ∧
      |(moveBot (reset 0 0)).mouseX - (reset 0 0).ball.px| ≤
        |(reset 0 0).mouseX - (reset 0 0).ball.px|) := by
  have h1 : paddleRadius ≤ (reset 0 0).mouseX := by
    rw [show (reset 0 0).mouseX = width / 2 from rfl]
    norm_num [paddleRadius, width]
  have h2 : (reset 0 0).mouseX ≤ width - paddleRadius := by
    rw [show (reset 0 0).mouseX = width / 2 from rfl]
    norm_num [paddleRadius, width]
  exact ⟨⟨h1, h2⟩, moveBot_spec (reset 0 0) h1 h2⟩

end AirHockey
